import Mathlib

set_option maxRecDepth 100000

/-!
# Verification of `tools/parse_data_fs.py`

A shallow embedding of the read-only filesystem-image inspector
`tools/parse_data_fs.py` and proofs about it.

Modelling conventions:
* The image file is a byte sequence `Image := List Nat` (each element a byte
  value).  A positioned read `f.seek(off); f.read(n)` that must yield exactly
  `n` bytes is `read_exact img off n`, which succeeds exactly when
  `off + n ≤ img.length` (Python's `f.read` past EOF returns fewer bytes and
  `read_exact` then raises).
* Python exceptions are modelled by `Except FsError`.  The distinct
  `ValueError` messages of the script are mapped to the error taxonomy of the
  design document; a Python `IndexError` (out-of-range subscript on a `bytes`
  object) is modelled by `FsError.indexError`.
* Python `str` path arguments and decoded entry names are modelled as byte
  sequences (`List Nat`); the path separator `'/'` is byte 47.  The script
  decodes stored names with UTF-8 (replacement on invalid sequences) and
  compares them with path components; on valid UTF-8 data — in particular on
  the ASCII names exercised here — equality of the decoded strings coincides
  with equality of the underlying byte sequences, which is what the model
  compares.
* All integers decoded from the image are unsigned 32-bit values, so they are
  represented as `Nat`; the script's `x < 0` guards can never fire on such
  values and vanish in the model (`x >= bound` remains).
-/

namespace ParseDataFs

abbrev Image := List Nat

/-- Error taxonomy of the design document, plus `indexError` for a raw Python
`IndexError` (an out-of-range subscript, not a raised `ValueError`). -/
inductive FsError where
  | badMagic
  | invalidGeometry
  | invalidLayout
  | outOfRange
  | geometryMismatch
  | shortRead
  | notADirectory
  | isADirectory
  | emptyDirectory
  | pathNotFound
  | truncatedFile
  | invalidPath
  | indexError
deriving DecidableEq, Repr

/-- Constant `FS_MAGIC = 0x20251205` from the script. -/
def FS_MAGIC : Nat := 0x20251205

/-- Constant `INODE_SIZE = 44` from the script. -/
def INODE_SIZE : Nat := 44

/-- Constant `DIRENTRY_SIZE = 64` from the script. -/
def DIRENTRY_SIZE : Nat := 64

/-- The eleven superblock fields, in on-disk order. -/
structure SuperBlock where
  magic : Nat
  blockSize : Nat
  totalBlocks : Nat
  inodeTableStart : Nat
  inodeTableBlocks : Nat
  inodeCount : Nat
  freeBitmapStart : Nat
  freeBitmapBlocks : Nat
  dataBlockStart : Nat
  dataBlockCount : Nat
  rootInodeId : Nat
deriving DecidableEq, Repr

/-- Decoded inode record (`id`, directory flag, `size`, 8 direct block ids). -/
structure Inode where
  id : Nat
  is_dir : Bool
  size : Nat
  direct : List Nat
deriving DecidableEq, Repr

/-- Little-endian 4-byte unsigned integer at byte offset `off` of `raw`
(the `<I` format of `struct.unpack`). -/
def u32le (raw : List Nat) (off : Nat) : Nat :=
  raw.getD off 0 + 256 * raw.getD (off + 1) 0 + 65536 * raw.getD (off + 2) 0 +
    16777216 * raw.getD (off + 3) 0

/-- Model of `read_exact(f, n)` after seeking to `off`: returns exactly `n` bytes
starting at `off`, or raises (ShortRead) when the image is too short. -/
def read_exact (img : Image) (off n : Nat) : Except FsError (List Nat) :=
  if off + n ≤ img.length then .ok ((img.drop off).take n)
  else .error .shortRead

/-- Decode the 44-byte superblock: eleven consecutive little-endian 4-byte
unsigned integers, in the declared field order (`struct.unpack("<11I", raw)`). -/
def decode_superblock (raw : List Nat) : SuperBlock :=
  { magic := u32le raw 0
    blockSize := u32le raw 4
    totalBlocks := u32le raw 8
    inodeTableStart := u32le raw 12
    inodeTableBlocks := u32le raw 16
    inodeCount := u32le raw 20
    freeBitmapStart := u32le raw 24
    freeBitmapBlocks := u32le raw 28
    dataBlockStart := u32le raw 32
    dataBlockCount := u32le raw 36
    rootInodeId := u32le raw 40 }

/-- Model of `read_superblock(f)`: read 44 bytes at offset 0, decode, validate magic
and positivity of `blockSize`/`totalBlocks`. -/
def read_superblock (img : Image) : Except FsError SuperBlock :=
  match read_exact img 0 44 with
  | .error e => .error e
  | .ok raw =>
    let sb := decode_superblock raw
    if sb.magic ≠ FS_MAGIC then .error .badMagic
    else if sb.blockSize = 0 ∨ sb.totalBlocks = 0 then .error .invalidGeometry
    else .ok sb

/-- Model of `file_offset_of_block(sb, block_id) = block_id * sb.blockSize`. -/
def file_offset_of_block (sb : SuperBlock) (blockId : Nat) : Nat :=
  blockId * sb.blockSize

/-- Model of `read_block(f, sb, block_id)`: range check, then a positioned read of
exactly `blockSize` bytes. -/
def read_block (img : Image) (sb : SuperBlock) (blockId : Nat) :
    Except FsError (List Nat) :=
  if blockId ≥ sb.totalBlocks then .error .outOfRange
  else read_exact img (file_offset_of_block sb blockId) sb.blockSize

/-- Model of `inode_offset(sb, inode_id)`: byte offset of an inode record. -/
def inode_offset (sb : SuperBlock) (inodeId : Nat) : Except FsError Nat :=
  let inodesPerBlock := sb.blockSize / INODE_SIZE
  if inodesPerBlock = 0 then .error .invalidLayout
  else if inodeId ≥ sb.inodeCount then .error .outOfRange
  else
    let blockIndex := inodeId / inodesPerBlock
    let indexInBlock := inodeId % inodesPerBlock
    if blockIndex ≥ sb.inodeTableBlocks then .error .geometryMismatch
    else .ok (file_offset_of_block sb (sb.inodeTableStart + blockIndex) +
      indexInBlock * INODE_SIZE)

/-- Decode a 44-byte inode record (`struct.Struct("<I?3xI8I")`): 4-byte id,
1-byte directory flag (nonzero byte means true), 3 padding bytes, 4-byte size,
eight 4-byte direct block ids. -/
def decode_inode (raw : List Nat) : Inode :=
  { id := u32le raw 0
    is_dir := raw.getD 4 0 != 0
    size := u32le raw 8
    direct := [u32le raw 12, u32le raw 16, u32le raw 20, u32le raw 24,
               u32le raw 28, u32le raw 32, u32le raw 36, u32le raw 40] }

/-- Model of `read_inode(f, sb, inode_id)`. -/
def read_inode (img : Image) (sb : SuperBlock) (inodeId : Nat) :
    Except FsError Inode :=
  match inode_offset sb inodeId with
  | .error e => .error e
  | .ok off =>
    match read_exact img off INODE_SIZE with
    | .error e => .error e
    | .ok raw => .ok (decode_inode raw)

/-- The character-by-character loop of `split_path`: `cur` is the component
accumulated so far, with its characters in reverse order. -/
def splitPathAux : List Nat → List Nat → List (List Nat)
  | [], cur => if cur = [] then [] else [cur.reverse]
  | c :: rest, cur =>
    if c = 47 then
      if cur = [] then splitPathAux rest []
      else cur.reverse :: splitPathAux rest []
    else splitPathAux rest (c :: cur)

/-- Model of `split_path(path)`: split on `'/'`, dropping empty components. -/
def split_path (path : List Nat) : List (List Nat) :=
  splitPathAux path []

/-- One directory entry: 4-byte child inode id and the name bytes
(the stored 60-byte buffer truncated at its first NUL). -/
def decode_dirent (chunk : List Nat) : Nat × List Nat :=
  (u32le chunk 0, ((chunk.drop 4).take 60).takeWhile (fun b => b != 0))

/-- The chunking loop of `parse_dir_block`, processing `n` full 64-byte
chunks; entries with inode id 0 are skipped. -/
def parse_dir_aux : Nat → List Nat → List (Nat × List Nat)
  | 0, _ => []
  | n + 1, block =>
    let ent := decode_dirent (block.take DIRENTRY_SIZE)
    let rest := parse_dir_aux n (block.drop DIRENTRY_SIZE)
    if ent.1 = 0 then rest else ent :: rest

/-- Model of `parse_dir_block(block)`: decode the packed 64-byte directory entries of a
block in on-disk order (`range(0, len(block), 64)` with a break at the first
short chunk processes exactly `len(block) / 64` full chunks). -/
def parse_dir_block (block : List Nat) : List (Nat × List Nat) :=
  parse_dir_aux (block.length / DIRENTRY_SIZE) block

/-- One iteration of the component-walking loop of `resolve_path`: read the
inode of `current`, require a directory with an allocated first data block,
decode that block, and linearly scan for the first entry named `name`
(Python's `for … if child_name == name: nxt = child_id; break`). -/
def resolveStep (img : Image) (sb : SuperBlock) (current : Nat)
    (name : List Nat) : Except FsError Nat :=
  match read_inode img sb current with
  | .error e => .error e
  | .ok ino =>
    if ino.is_dir = false then .error .notADirectory
    else if ino.direct.getD 0 0 = 0 then .error .emptyDirectory
    else
      match read_block img sb (ino.direct.getD 0 0) with
      | .error e => .error e
      | .ok blk =>
        match (parse_dir_block blk).find? (fun e => e.2 == name) with
        | none => .error .pathNotFound
        | some ent => .ok ent.1

/-- The component-walking loop of `resolve_path`: `current` is updated to the
matched child id after each component. -/
def resolveLoop (img : Image) (sb : SuperBlock) :
    List (List Nat) → Nat → Except FsError Nat
  | [], current => .ok current
  | name :: rest, current =>
    match resolveStep img sb current name with
    | .error e => .error e
    | .ok nxt => resolveLoop img sb rest nxt

/-- Model of `resolve_path(f, sb, path)`. -/
def resolve_path (img : Image) (sb : SuperBlock) (path : List Nat) :
    Except FsError Nat :=
  if path = [] ∨ path = [47] then .ok sb.rootInodeId
  else
    let comps := split_path path
    if comps = [] then .error .invalidPath
    else resolveLoop img sb comps sb.rootInodeId

/-- The per-entry body of the `list_dir` loop: read the child inode and
append the `"/"` marker (byte 47) to the name when the child is a directory. -/
def annotate_entry (img : Image) (sb : SuperBlock) (ent : Nat × List Nat) :
    Except FsError (List Nat) :=
  match read_inode img sb ent.1 with
  | .error e => .error e
  | .ok child => .ok (ent.2 ++ (if child.is_dir then [47] else []))

/-- Model of `list_dir(f, sb, path)`. -/
def list_dir (img : Image) (sb : SuperBlock) (path : List Nat) :
    Except FsError (List (List Nat)) :=
  match resolve_path img sb path with
  | .error e => .error e
  | .ok inodeId =>
    match read_inode img sb inodeId with
    | .error e => .error e
    | .ok ino =>
      if ino.is_dir = false then .error .notADirectory
      else if ino.direct.getD 0 0 = 0 then .ok []
      else
        match read_block img sb (ino.direct.getD 0 0) with
        | .error e => .error e
        | .ok blk => (parse_dir_block blk).mapM (annotate_entry img sb)

/-- The direct-block loop of `read_file_content`: returns the accumulated
bytes together with the final value of `remaining`. -/
def read_file_loop (img : Image) (sb : SuperBlock) :
    List Nat → Nat → Except FsError (List Nat × Nat)
  | [], remaining => .ok ([], remaining)
  | blockId :: rest, remaining =>
    if remaining = 0 then .ok ([], remaining)
    else if blockId = 0 then .ok ([], remaining)
    else
      match read_block img sb blockId with
      | .error e => .error e
      | .ok blk =>
        let take := min remaining sb.blockSize
        match read_file_loop img sb rest (remaining - take) with
        | .error e => .error e
        | .ok (tail, rem) => .ok (blk.take take ++ tail, rem)

/-- Model of `read_file_content(f, sb, path)`. -/
def read_file_content (img : Image) (sb : SuperBlock) (path : List Nat) :
    Except FsError (List Nat) :=
  match resolve_path img sb path with
  | .error e => .error e
  | .ok inodeId =>
    match read_inode img sb inodeId with
    | .error e => .error e
    | .ok ino =>
      if ino.is_dir then .error .isADirectory
      else
        match read_file_loop img sb ino.direct ino.size with
        | .error e => .error e
        | .ok (content, rem) =>
          if rem ≠ 0 then .error .truncatedFile else .ok content

/-- The inner bit-counting loop of `bitmap_stats`: consume `n` bits of the
current bitmap block `bmp`, starting at the running global `bitIndex`.  A
subscript `bmp[bitIndex / 8]` beyond the end of `bmp` is a Python
`IndexError`, modelled by `FsError.indexError`.  Returns the updated
`(used, bitIndex)`. -/
def count_bits (bmp : List Nat) : Nat → Nat → Nat → Except FsError (Nat × Nat)
  | 0, bitIndex, used => .ok (used, bitIndex)
  | n + 1, bitIndex, used =>
    match bmp.get? (bitIndex / 8) with
    | none => .error .indexError
    | some byte =>
      count_bits bmp n (bitIndex + 1) (used + ((byte >>> (bitIndex % 8)) &&& 1))

/-- The outer loop of `bitmap_stats` over the bitmap block indices
`0, 1, …, freeBitmapBlocks - 1`; carries `(remaining, bitIndex, used)`. -/
def bitmap_loop (img : Image) (sb : SuperBlock) :
    List Nat → Nat → Nat → Nat → Except FsError Nat
  | [], _, _, used => .ok used
  | b :: rest, remaining, bitIndex, used =>
    if remaining = 0 then .ok used
    else
      match read_block img sb (sb.freeBitmapStart + b) with
      | .error e => .error e
      | .ok bmp =>
        let bits := min (bmp.length * 8) remaining
        match count_bits bmp bits bitIndex used with
        | .error e => .error e
        | .ok (used2, bitIndex2) =>
          bitmap_loop img sb rest (remaining - bits) bitIndex2 used2

/-- The File Reader contract of the design document, §4.5, as a pure
function of the image: the concatenation of the
`min(remaining, blockSize)`-byte prefixes of the visited direct blocks in
array order, visiting blocks until `remaining` reaches 0 or a block id is 0.
Used only to compare `read_file_content` against the specification text. -/
def spec_file_bytes (img : Image) (sb : SuperBlock) :
    List Nat → Nat → List Nat
  | [], _ => []
  | blockId :: rest, remaining =>
    if remaining = 0 ∨ blockId = 0 then []
    else
      ((img.drop (blockId * sb.blockSize)).take sb.blockSize).take
          (min remaining sb.blockSize)
        ++ spec_file_bytes img sb rest (remaining - min remaining sb.blockSize)

/-- Model of `bitmap_stats(f, sb) -> (total, used, free)`. -/
def bitmap_stats (img : Image) (sb : SuperBlock) :
    Except FsError (Nat × Nat × Nat) :=
  match bitmap_loop img sb (List.range sb.freeBitmapBlocks)
      sb.dataBlockCount 0 0 with
  | .error e => .error e
  | .ok used => .ok (sb.dataBlockCount, used, sb.dataBlockCount - used)

/-- ASCII string literal as a byte sequence. -/
def ascii (s : String) : List Nat :=
  s.data.map Char.toNat

/-! ## Concrete images used as test vectors

Small, fully materialized images, each a complete byte-for-byte file.
They are built with the serializers below, which write the same little-endian
layout the script decodes. -/

/-- Serialize a `Nat` as a little-endian 4-byte unsigned integer. -/
def u32bytes (v : Nat) : List Nat :=
  [v % 256, v / 256 % 256, v / 65536 % 256, v / 16777216 % 256]

/-- Pad a byte sequence with NULs up to length `n`. -/
def padTo (n : Nat) (l : List Nat) : List Nat :=
  l ++ List.replicate (n - l.length) 0

/-- Serialize a 64-byte directory entry. -/
def mkDirent (inodeId : Nat) (name : List Nat) : List Nat :=
  u32bytes inodeId ++ padTo 60 name

/-- Serialize a 44-byte inode record. -/
def mkInode (inodeId flag size : Nat) (direct : List Nat) : List Nat :=
  u32bytes inodeId ++ [flag, 0, 0, 0] ++ u32bytes size ++
    (direct.map u32bytes).flatten

/-- Serialize the 44-byte superblock. -/
def mkSuper (sb : SuperBlock) : List Nat :=
  ([sb.magic, sb.blockSize, sb.totalBlocks, sb.inodeTableStart,
    sb.inodeTableBlocks, sb.inodeCount, sb.freeBitmapStart,
    sb.freeBitmapBlocks, sb.dataBlockStart, sb.dataBlockCount,
    sb.rootInodeId].map u32bytes).flatten

/-- C1 geometry: `blockSize = 1`, so one bitmap block holds 8 bits and the
10 data-block bits span two bitmap blocks (44-45).  The superblock occupies
blocks 0-43, the inode table is declared empty, data blocks are 46-55. -/
def SB1 : SuperBlock :=
  { magic := FS_MAGIC, blockSize := 1, totalBlocks := 56,
    inodeTableStart := 0, inodeTableBlocks := 0, inodeCount := 0,
    freeBitmapStart := 44, freeBitmapBlocks := 2,
    dataBlockStart := 46, dataBlockCount := 10, rootInodeId := 0 }

/-- C1 image, complete at 56 bytes: superblock, bitmap bytes `0xFF, 0x03`
(all 10 data-block bits set), then the 10 data blocks. -/
def IMG1 : Image :=
  mkSuper SB1 ++ [255, 3] ++ List.replicate 10 0

/-- C2 geometry: only `rootInodeId` matters for all-separator paths. -/
def SB2 : SuperBlock :=
  { magic := FS_MAGIC, blockSize := 512, totalBlocks := 1,
    inodeTableStart := 0, inodeTableBlocks := 0, inodeCount := 0,
    freeBitmapStart := 0, freeBitmapBlocks := 0,
    dataBlockStart := 0, dataBlockCount := 0, rootInodeId := 5 }

/-- C3 geometry: `blockSize = 64` (one inode and one directory entry per
block), root at inode 0, one file `big` at inode 1 over data blocks 4-6. -/
def SB3 : SuperBlock :=
  { magic := FS_MAGIC, blockSize := 64, totalBlocks := 7,
    inodeTableStart := 1, inodeTableBlocks := 2, inodeCount := 2,
    freeBitmapStart := 0, freeBitmapBlocks := 0,
    dataBlockStart := 4, dataBlockCount := 3, rootInodeId := 0 }

/-- C3 success image: `big` has size 150 over blocks `[4, 5, 6]`
(64 + 64 + 22 bytes of `A`, `B`, `C`). -/
def IMG3a : Image :=
  padTo 64 (mkSuper SB3)
  ++ mkInode 0 1 64 [3, 0, 0, 0, 0, 0, 0, 0] ++ List.replicate 20 0
  ++ mkInode 1 0 150 [4, 5, 6, 0, 0, 0, 0, 0] ++ List.replicate 20 0
  ++ mkDirent 1 (ascii "big")
  ++ List.replicate 64 65 ++ List.replicate 64 66 ++ List.replicate 64 67

/-- C3 truncation image: identical geometry, but `big` claims 2000 bytes
with only two allocated blocks `[4, 5]` (128 bytes of supply). -/
def IMG3b : Image :=
  padTo 64 (mkSuper SB3)
  ++ mkInode 0 1 64 [3, 0, 0, 0, 0, 0, 0, 0] ++ List.replicate 20 0
  ++ mkInode 1 0 2000 [4, 5, 0, 0, 0, 0, 0, 0] ++ List.replicate 20 0
  ++ mkDirent 1 (ascii "big")
  ++ List.replicate 64 65 ++ List.replicate 64 66 ++ List.replicate 64 67

/-- The expected content of `big` in `IMG3a`. -/
def c3Content : List Nat :=
  List.replicate 64 65 ++ List.replicate 64 66 ++ List.replicate 22 67

/-- C5 geometry: an arbitrary well-formed superblock. -/
def SB5 : SuperBlock :=
  { magic := FS_MAGIC, blockSize := 512, totalBlocks := 100,
    inodeTableStart := 1, inodeTableBlocks := 1, inodeCount := 80,
    freeBitmapStart := 2, freeBitmapBlocks := 1,
    dataBlockStart := 3, dataBlockCount := 90, rootInodeId := 0 }

/-- C5 image: exactly the 44 serialized superblock bytes. -/
def IMG5 : Image := mkSuper SB5

/-- C6 geometry: three blocks of 4 bytes each. -/
def SB6 : SuperBlock :=
  { magic := FS_MAGIC, blockSize := 4, totalBlocks := 3,
    inodeTableStart := 0, inodeTableBlocks := 0, inodeCount := 0,
    freeBitmapStart := 0, freeBitmapBlocks := 0,
    dataBlockStart := 0, dataBlockCount := 0, rootInodeId := 0 }

/-- C6 image: 12 distinguishable bytes. -/
def IMG6 : Image := [10, 11, 12, 13, 20, 21, 22, 23, 30, 31, 32, 33]

/-- C7/C10 geometry: `blockSize = 128` (two directory entries per block),
a single real inode (the root), root directory data in block 2. -/
def SB7 : SuperBlock :=
  { magic := FS_MAGIC, blockSize := 128, totalBlocks := 3,
    inodeTableStart := 1, inodeTableBlocks := 1, inodeCount := 1,
    freeBitmapStart := 0, freeBitmapBlocks := 0,
    dataBlockStart := 2, dataBlockCount := 1, rootInodeId := 0 }

/-- C7/C10 image: the root directory holds two entries both named `f`, the
first carrying the dangling inode id 999 (outside `[0, inodeCount)`), the
second the id 7. -/
def IMG7 : Image :=
  padTo 128 (mkSuper SB7)
  ++ padTo 128 (mkInode 0 1 128 [2, 0, 0, 0, 0, 0, 0, 0])
  ++ mkDirent 999 (ascii "f") ++ mkDirent 7 (ascii "f")

/-- C8 geometry: `blockSize = 192` (three directory entries per block),
three inodes, root directory data in block 2. -/
def SB8 : SuperBlock :=
  { magic := FS_MAGIC, blockSize := 192, totalBlocks := 3,
    inodeTableStart := 1, inodeTableBlocks := 1, inodeCount := 3,
    freeBitmapStart := 0, freeBitmapBlocks := 0,
    dataBlockStart := 2, dataBlockCount := 1, rootInodeId := 0 }

/-- C8 image: the root directory holds `(1, "d")` (an empty directory),
`(0, "zz")` (an unused slot that listings must skip) and `(2, "g")`
(a file). -/
def IMG8 : Image :=
  padTo 192 (mkSuper SB8)
  ++ padTo 192 (mkInode 0 1 192 [2, 0, 0, 0, 0, 0, 0, 0]
      ++ mkInode 1 1 0 [0, 0, 0, 0, 0, 0, 0, 0]
      ++ mkInode 2 0 0 [0, 0, 0, 0, 0, 0, 0, 0])
  ++ mkDirent 1 (ascii "d") ++ mkDirent 0 (ascii "zz") ++ mkDirent 2 (ascii "g")

/-! ## Helper lemmas -/

/-- Lemma: `read_block` fully characterized: range check, then an exact positioned
read of the byte range `[blockId * blockSize, blockId * blockSize + blockSize)`. -/
theorem read_block_eq (img : Image) (sb : SuperBlock) (blockId : Nat) :
    read_block img sb blockId =
      if blockId ≥ sb.totalBlocks then .error .outOfRange
      else if blockId * sb.blockSize + sb.blockSize ≤ img.length then
        .ok ((img.drop (blockId * sb.blockSize)).take sb.blockSize)
      else .error .shortRead := rfl

/-- A successful `read_block` returns exactly `blockSize` bytes. -/
theorem read_block_ok_length (img : Image) (sb : SuperBlock) (blockId : Nat)
    (blk : List Nat) (h : read_block img sb blockId = .ok blk) :
    blk.length = sb.blockSize := by
  rw [read_block_eq] at h
  split at h
  · simp at h
  · split at h
    · rename_i hle
      simp only [Except.ok.injEq] at h
      subst h
      simp only [List.length_take, List.length_drop]
      omega
    · simp at h

/-- A successful `read_block` returns the slice of the image at the block's
byte range. -/
theorem read_block_ok_bytes (img : Image) (sb : SuperBlock) (blockId : Nat)
    (blk : List Nat) (h : read_block img sb blockId = .ok blk) :
    blk = (img.drop (blockId * sb.blockSize)).take sb.blockSize := by
  rw [read_block_eq] at h
  split at h
  · simp at h
  · split at h
    · simp only [Except.ok.injEq] at h
      exact h.symm
    · simp at h

/-- A path consisting only of separator bytes splits into no components. -/
theorem split_path_sep_only (p : List Nat) (h : ∀ c ∈ p, c = 47) :
    split_path p = [] := by
  unfold split_path
  induction p with
  | nil => rfl
  | cons c rest ih =>
    have hc : c = 47 := h c (List.mem_cons_self c rest)
    subst hc
    simp only [splitPathAux, if_pos rfl]
    exact ih fun x hx => h x (List.mem_cons_of_mem _ hx)

/-! ## Claim theorems -/

/-- C1 (code_bug evidence): `IMG1` is a valid 56-byte image whose bitmap
region (blocks 44-45, `blockSize = 1`) covers its 10 data-block bits, yet
`bitmap_stats` fails with an index error instead of returning
`(total, used, free)`: the running bit index is not reset when the scan moves
to the second bitmap block, so the byte subscript runs past that block's
end. -/
theorem c1_bitmap_stats_multiblock_index_error :
    read_superblock IMG1 = .ok SB1 ∧
    bitmap_stats IMG1 SB1 = .error .indexError :=
  ⟨rfl, rfl⟩

/-- C2 (corrected): only the empty path and the single-separator path `"/"`
resolve to `rootInodeId` (independent of the image, hence without any block
read); a path of two or more separators — which also collapses to zero
components — instead fails with an invalid-path error, likewise without
reading the image. -/
theorem c2_resolve_separator_paths :
    (∀ (img : Image) (sb : SuperBlock) (path : List Nat),
        path = [] ∨ path = [47] →
        resolve_path img sb path = .ok sb.rootInodeId)
    ∧ (∀ (img : Image) (sb : SuperBlock) (path : List Nat),
        (∀ c ∈ path, c = 47) → 2 ≤ path.length →
        resolve_path img sb path = .error .invalidPath) := by
  constructor
  · intro img sb path h
    unfold resolve_path
    rw [if_pos h]
  · intro img sb path hall hlen
    have hsp : split_path path = [] := split_path_sep_only path hall
    have hne : ¬(path = [] ∨ path = [47]) := by
      rintro (rfl | rfl) <;> simp at hlen
    unfold resolve_path
    rw [if_neg hne]
    simp [hsp]

/-- C2 counterexample: on the concrete superblock `SB2` (root inode 5), the
all-separator path `"//"` does not resolve to `rootInodeId`; it fails with an
invalid-path error. -/
theorem c2_counterexample_double_separator :
    resolve_path [] SB2 (ascii "//") = .error .invalidPath := rfl

/-- C2 witness: the amended statement at concrete inputs. -/
theorem c2_witness :
    resolve_path [] SB2 [] = .ok 5 ∧ resolve_path [] SB2 [47] = .ok 5 ∧
    resolve_path [] SB2 [47, 47, 47] = .error .invalidPath :=
  ⟨c2_resolve_separator_paths.1 [] SB2 [] (Or.inl rfl),
   c2_resolve_separator_paths.1 [] SB2 [47] (Or.inr rfl),
   c2_resolve_separator_paths.2 [] SB2 [47, 47, 47] (by decide) (by decide)⟩

/-- C4 (confirmed): `inode_offset` fails with InvalidLayout when
`blockSize / 44 = 0`, with OutOfRange when `inodeId` is not below
`inodeCount`, with GeometryMismatch when the block index reaches
`inodeTableBlocks`, and otherwise returns
`(inodeTableStart + inodeId / inodesPerBlock) * blockSize +
(inodeId % inodesPerBlock) * 44`. -/
theorem c4_inode_offset_contract (sb : SuperBlock) (inodeId : Nat) :
    inode_offset sb inodeId =
      if sb.blockSize / 44 = 0 then .error .invalidLayout
      else if inodeId ≥ sb.inodeCount then .error .outOfRange
      else if inodeId / (sb.blockSize / 44) ≥ sb.inodeTableBlocks then
        .error .geometryMismatch
      else .ok ((sb.inodeTableStart + inodeId / (sb.blockSize / 44))
          * sb.blockSize + (inodeId % (sb.blockSize / 44)) * 44) := rfl

/-- C5 (confirmed): on any image with at least 44 bytes, `read_superblock`
decodes the first 44 bytes as the eleven little-endian 4-byte fields (via
`decode_superblock`), fails with BadMagic when the decoded magic is not the
fixed constant, fails with InvalidGeometry when the decoded `blockSize` or
`totalBlocks` is zero, and otherwise accepts the superblock with no further
validation of any field. -/
theorem c5_read_superblock_contract (img : Image) (h : 44 ≤ img.length) :
    read_superblock img =
      (if (decode_superblock (img.take 44)).magic ≠ FS_MAGIC then
        .error .badMagic
       else if (decode_superblock (img.take 44)).blockSize = 0 ∨
           (decode_superblock (img.take 44)).totalBlocks = 0 then
        .error .invalidGeometry
       else .ok (decode_superblock (img.take 44))) := by
  have hx : read_exact img 0 44 = .ok (img.take 44) := by
    unfold read_exact
    rw [if_pos (by omega), List.drop_zero]
  unfold read_superblock
  rw [hx]

/-- C5 witness: the contract applied to the 44-byte image `IMG5`. -/
theorem c5_witness : read_superblock IMG5 = .ok SB5 :=
  (c5_read_superblock_contract IMG5 (by decide)).trans rfl

/-- C6 (confirmed): `read_block` fails with OutOfRange when the block id is
not below `totalBlocks`, fails with ShortRead when the image does not hold
`blockSize` bytes at offset `blockId * blockSize`, and otherwise returns
exactly those `blockSize` bytes; a successful read never returns a partial
block. -/
theorem c6_read_block_contract :
    (∀ (img : Image) (sb : SuperBlock) (blockId : Nat),
        read_block img sb blockId =
          if blockId ≥ sb.totalBlocks then .error .outOfRange
          else if blockId * sb.blockSize + sb.blockSize ≤ img.length then
            .ok ((img.drop (blockId * sb.blockSize)).take sb.blockSize)
          else .error .shortRead)
    ∧ (∀ (img : Image) (sb : SuperBlock) (blockId : Nat) (blk : List Nat),
        read_block img sb blockId = .ok blk → blk.length = sb.blockSize) :=
  ⟨read_block_eq, read_block_ok_length⟩

/-- C6 witness: reading block 1 of the 12-byte image `IMG6` (blocks of 4
bytes) returns exactly its 4 bytes. -/
theorem c6_witness :
    read_block IMG6 SB6 1 = .ok [20, 21, 22, 23] ∧
    ([20, 21, 22, 23] : List Nat).length = SB6.blockSize :=
  ⟨rfl, c6_read_block_contract.2 IMG6 SB6 1 [20, 21, 22, 23] rfl⟩

/-- The accumulator-passing splitter agrees with `List.splitOnP` followed by
dropping empty components; the accumulator (reversed) is prepended to the
first component produced. -/
theorem splitPathAux_eq_splitOnP (p : List Nat) :
    ∀ (cur : List Nat) (h : List Nat) (t : List (List Nat)),
      p.splitOnP (fun c => c == 47) = h :: t →
      splitPathAux p cur =
        ((cur.reverse ++ h) :: t).filter (fun c => !c.isEmpty) := by
  induction p with
  | nil =>
    intro cur h t hsp
    rw [List.splitOnP_nil] at hsp
    injection hsp with hh ht
    subst hh
    subst ht
    by_cases hc : cur = []
    · subst hc
      simp [splitPathAux]
    · simp only [splitPathAux, if_neg hc, List.append_nil, List.filter]
      have : (!(cur.reverse).isEmpty) = true := by
        simp [List.isEmpty_eq_true, List.reverse_eq_nil_iff, hc]
      rw [this]
  | cons c rest ih =>
    intro cur h t hsp
    rw [List.splitOnP_cons] at hsp
    obtain ⟨h', t', hrest⟩ : ∃ h' t',
        rest.splitOnP (fun c => c == 47) = h' :: t' := by
      cases hr : rest.splitOnP (fun c => c == 47) with
      | nil => exact absurd hr (List.splitOnP_ne_nil _ rest)
      | cons a b => exact ⟨a, b, rfl⟩
    by_cases hc : c = 47
    · subst hc
      simp only [beq_self_eq_true, if_pos] at hsp
      injection hsp with hh ht
      subst hh
      subst ht
      have ihr := ih [] h' t' hrest
      simp only [List.reverse_nil, List.nil_append] at ihr
      by_cases hcur : cur = []
      · subst hcur
        simp only [splitPathAux, if_pos rfl, ihr, hrest]
        simp [List.filter]
      · simp only [splitPathAux, if_pos rfl, if_neg hcur, ihr, hrest,
          List.append_nil, List.filter]
        have : (!(cur.reverse).isEmpty) = true := by
          simp [List.isEmpty_eq_true, List.reverse_eq_nil_iff, hcur]
        simp [this]
    · have hcb : ((c == 47) : Bool) = false := by
        simp [hc]
      rw [hcb] at hsp
      simp only [Bool.false_eq_true, if_neg, hrest, List.modifyHead] at hsp
      injection hsp with hh ht
      subst hh
      subst ht
      have ihr := ih (c :: cur) h' t' hrest
      simp only [splitPathAux, if_neg hc, ihr, List.reverse_cons,
        List.append_assoc, List.singleton_append]

/-- C9 (confirmed): `split_path` returns exactly the non-empty
separator-delimited components of its input, in order, and in particular the
three example paths all split into `["a", "b"]`. -/
theorem c9_split_path_contract :
    (∀ p : List Nat,
        split_path p = (p.splitOn 47).filter (fun c => !c.isEmpty))
    ∧ split_path (ascii "/a//b/") = [ascii "a", ascii "b"]
    ∧ split_path (ascii "a/b") = [ascii "a", ascii "b"]
    ∧ split_path (ascii "//a/b//") = [ascii "a", ascii "b"] := by
  refine ⟨fun p => ?_, by decide, by decide, by decide⟩
  obtain ⟨h, t, hsp⟩ : ∃ h t, p.splitOnP (fun c => c == 47) = h :: t := by
    cases hr : p.splitOnP (fun c => c == 47) with
    | nil => exact absurd hr (List.splitOnP_ne_nil _ p)
    | cons a b => exact ⟨a, b, rfl⟩
  have hx := splitPathAux_eq_splitOnP p [] h t hsp
  simp only [List.reverse_nil, List.nil_append] at hx
  unfold split_path
  rw [hx, show p.splitOn 47 = p.splitOnP (fun c => c == 47) from rfl, hsp]

/-- Lemma: `List.find?` returns the element at the first index whose entry satisfies
the predicate, when every earlier index fails it. -/
theorem find?_eq_of_first {α : Type _} (p : α → Bool) :
    ∀ (l : List α) (i : Nat) (a : α), l.get? i = some a → p a = true →
      (∀ j b, j < i → l.get? j = some b → p b = false) →
      l.find? p = some a := by
  intro l
  induction l with
  | nil => intro i a h _ _; simp at h
  | cons x xs ih =>
    intro i a hget hp hmin
    cases i with
    | zero =>
      rw [List.get?_cons_zero] at hget
      injection hget with hx
      subst hx
      exact List.find?_cons_of_pos xs hp
    | succ i =>
      have hx : p x = false :=
        hmin 0 x (Nat.succ_pos i) List.get?_cons_zero
      rw [List.find?_cons_of_neg xs (by simp [hx])]
      exact ih i a (by simpa using hget) hp
        fun j b hj hg => hmin (j + 1) b (Nat.succ_lt_succ hj) (by simpa using hg)

/-- A fully successful `resolveStep`: the matched entry's id becomes the new
`current`. -/
theorem resolveStep_ok (img : Image) (sb : SuperBlock) (current : Nat)
    (name : List Nat) (ino : Inode) (blk : List Nat) (ent : Nat × List Nat)
    (h1 : read_inode img sb current = .ok ino)
    (h2 : ino.is_dir = true)
    (h3 : ino.direct.getD 0 0 ≠ 0)
    (h4 : read_block img sb (ino.direct.getD 0 0) = .ok blk)
    (h5 : (parse_dir_block blk).find? (fun e => e.2 == name) = some ent) :
    resolveStep img sb current name = .ok ent.1 := by
  simp only [resolveStep, h1]
  rw [if_neg (by simp [h2]), if_neg h3]
  simp only [h4, h5]

/-- Unfolding one successful iteration of the component walk. -/
theorem resolveLoop_cons_ok (img : Image) (sb : SuperBlock) (current nxt : Nat)
    (name : List Nat) (rest : List (List Nat))
    (h : resolveStep img sb current name = .ok nxt) :
    resolveLoop img sb (name :: rest) current = resolveLoop img sb rest nxt := by
  simp [resolveLoop, h]

/-- Walking `xs ++ ys` is walking `xs`, then walking `ys` from its result. -/
theorem resolveLoop_append (img : Image) (sb : SuperBlock) :
    ∀ (xs ys : List (List Nat)) (c m : Nat),
      resolveLoop img sb xs c = .ok m →
      resolveLoop img sb (xs ++ ys) c = resolveLoop img sb ys m := by
  intro xs
  induction xs with
  | nil =>
    intro ys c m h
    simp only [resolveLoop, Except.ok.injEq] at h
    subst h
    rw [List.nil_append]
  | cons name xs ih =>
    intro ys c m h
    simp only [resolveLoop] at h
    rw [List.cons_append]
    cases hst : resolveStep img sb c name with
    | error e => rw [hst] at h; simp at h
    | ok nxt =>
      rw [hst] at h
      simp only at h
      rw [resolveLoop_cons_ok img sb c nxt name (xs ++ ys) hst]
      exact ih ys nxt m h

/-- C7 (confirmed): when the directory block of `current` decodes to an entry
list whose first occurrence of `name` (after the inode-id-0 slots were
skipped by the decoder) sits at index `i` with child id `childId`, the walk
step for `name` continues with `current` set to `childId`: the first entry in
on-disk order wins, duplicates notwithstanding. -/
theorem c7_duplicate_names_first_match (img : Image) (sb : SuperBlock)
    (current : Nat) (name : List Nat) (rest : List (List Nat)) (ino : Inode)
    (blk : List Nat) (i : Nat) (childId : Nat)
    (h1 : read_inode img sb current = .ok ino)
    (h2 : ino.is_dir = true)
    (h3 : ino.direct.getD 0 0 ≠ 0)
    (h4 : read_block img sb (ino.direct.getD 0 0) = .ok blk)
    (h5 : (parse_dir_block blk).get? i = some (childId, name))
    (h6 : ∀ j e, j < i → (parse_dir_block blk).get? j = some e → e.2 ≠ name) :
    resolveLoop img sb (name :: rest) current = resolveLoop img sb rest childId := by
  have hf : (parse_dir_block blk).find? (fun e => e.2 == name)
      = some (childId, name) :=
    find?_eq_of_first _ _ i _ h5 (by simp)
      fun j b hj hg => beq_eq_false_iff_ne.mpr (h6 j b hj hg)
  exact resolveLoop_cons_ok img sb current childId name rest
    (resolveStep_ok img sb current name ino blk (childId, name) h1 h2 h3 h4 hf)

/-- C7 witness: in `IMG7` the root directory holds `(999, "f")` then
`(7, "f")`; the walk for component `"f"` continues with 999, the first
entry. -/
theorem c7_witness : resolveLoop IMG7 SB7 [ascii "f"] 0 = .ok 999 :=
  (c7_duplicate_names_first_match IMG7 SB7 0 (ascii "f") []
      ⟨0, true, 128, [2, 0, 0, 0, 0, 0, 0, 0]⟩
      ((IMG7.drop 256).take 128) 0 999 rfl rfl (by decide) rfl rfl
      (fun j e hj _ => absurd hj (Nat.not_lt_zero j))).trans rfl

/-- C10 (confirmed): the inode named by the final path component is never
read or validated: whenever the walk reaches the directory holding the final
component and that directory's block holds a matching entry, `resolve_path`
returns that entry's id as-is — with no hypothesis that the id is a valid
inode number. -/
theorem c10_final_component_not_validated (img : Image) (sb : SuperBlock)
    (path : List Nat) (pre : List (List Nat)) (name : List Nat) (cur : Nat)
    (ino : Inode) (blk : List Nat) (ent : Nat × List Nat)
    (hsplit : split_path path = pre ++ [name])
    (hpre : resolveLoop img sb pre sb.rootInodeId = .ok cur)
    (h1 : read_inode img sb cur = .ok ino)
    (h2 : ino.is_dir = true)
    (h3 : ino.direct.getD 0 0 ≠ 0)
    (h4 : read_block img sb (ino.direct.getD 0 0) = .ok blk)
    (h5 : (parse_dir_block blk).find? (fun e => e.2 == name) = some ent) :
    resolve_path img sb path = .ok ent.1 := by
  have hne : ¬(path = [] ∨ path = [47]) := by
    rintro (rfl | rfl) <;> simp [split_path, splitPathAux] at hsplit
  unfold resolve_path
  rw [if_neg hne]
  simp only [hsplit]
  rw [if_neg (by simp)]
  rw [resolveLoop_append img sb pre [name] sb.rootInodeId cur hpre]
  rw [resolveLoop_cons_ok img sb cur ent.1 name []
    (resolveStep_ok img sb cur name ino blk ent h1 h2 h3 h4 h5)]
  rfl

/-- C10 witness: in `IMG7` the entry `(999, "f")` is dangling —
`inodeCount = 1`, and reading inode 999 fails — yet `resolve_path` returns
999 as-is. -/
theorem c10_witness :
    resolve_path IMG7 SB7 (ascii "/f") = .ok 999 ∧ SB7.inodeCount = 1 ∧
    read_inode IMG7 SB7 999 = .error .outOfRange :=
  ⟨c10_final_component_not_validated IMG7 SB7 (ascii "/f") [] (ascii "f") 0
      ⟨0, true, 128, [2, 0, 0, 0, 0, 0, 0, 0]⟩
      ((IMG7.drop 256).take 128) (999, ascii "f")
      (by decide) rfl rfl rfl (by decide) rfl rfl,
   rfl, rfl⟩

/-- Entries produced by the directory-block decoder never carry inode id 0:
those slots are skipped. -/
theorem parse_dir_aux_mem_ne_zero :
    ∀ (n : Nat) (block : List Nat) (ent : Nat × List Nat),
      ent ∈ parse_dir_aux n block → ent.1 ≠ 0 := by
  intro n
  induction n with
  | zero => intro block ent h; simp [parse_dir_aux] at h
  | succ n ih =>
    intro block ent h
    simp only [parse_dir_aux] at h
    split at h
    · exact ih _ _ h
    · rename_i hz
      rcases List.mem_cons.mp h with rfl | h'
      · exact hz
      · exact ih _ _ h'

/-- C8 (confirmed): given the resolved inode of a path, `list_dir` fails with
NotADirectory when it is not a directory, returns the empty listing when its
first direct block id is 0, and otherwise maps the decoded entries of that
single block, in on-disk order, through the child-inode annotation (a
trailing `"/"` marker byte for directories); decoded entry lists never
contain an entry with inode id 0. -/
theorem c8_list_dir_contract (img : Image) (sb : SuperBlock) (path : List Nat)
    (inodeId : Nat) (ino : Inode)
    (h1 : resolve_path img sb path = .ok inodeId)
    (h2 : read_inode img sb inodeId = .ok ino) :
    (ino.is_dir = false → list_dir img sb path = .error .notADirectory)
    ∧ (ino.is_dir = true → ino.direct.getD 0 0 = 0 →
        list_dir img sb path = .ok [])
    ∧ (∀ blk, ino.is_dir = true → ino.direct.getD 0 0 ≠ 0 →
        read_block img sb (ino.direct.getD 0 0) = .ok blk →
        list_dir img sb path =
          (parse_dir_block blk).mapM (annotate_entry img sb))
    ∧ (∀ (block : List Nat) (ent : Nat × List Nat),
        ent ∈ parse_dir_block block → ent.1 ≠ 0) := by
  refine ⟨?_, ?_, ?_, ?_⟩
  · intro hdir
    simp only [list_dir, h1, h2]
    rw [if_pos hdir]
  · intro hdir h0
    simp only [list_dir, h1, h2]
    rw [if_neg (by simp [hdir]), if_pos h0]
  · intro blk hdir h0 hblk
    simp only [list_dir, h1, h2]
    rw [if_neg (by simp [hdir]), if_neg h0]
    simp only [hblk]
  · intro block ent hmem
    exact parse_dir_aux_mem_ne_zero _ block ent hmem

/-- C8 witness: in `IMG8`, listing `/` yields `["d/", "g"]` (the unused slot
`(0, "zz")` is skipped, the directory child is marked), listing the empty
directory `/d` yields `[]`, and listing the file `/g` fails with
NotADirectory. -/
theorem c8_witness :
    list_dir IMG8 SB8 (ascii "/") = .ok [ascii "d/", ascii "g"] ∧
    list_dir IMG8 SB8 (ascii "/d") = .ok [] ∧
    list_dir IMG8 SB8 (ascii "/g") = .error .notADirectory :=
  ⟨((c8_list_dir_contract IMG8 SB8 (ascii "/") 0
        ⟨0, true, 192, [2, 0, 0, 0, 0, 0, 0, 0]⟩ rfl rfl).2.2.1
      ((IMG8.drop 384).take 192) rfl (by decide) rfl).trans rfl,
   (c8_list_dir_contract IMG8 SB8 (ascii "/d") 1
        ⟨1, true, 0, [0, 0, 0, 0, 0, 0, 0, 0]⟩ rfl rfl).2.1 rfl rfl,
   (c8_list_dir_contract IMG8 SB8 (ascii "/g") 2
        ⟨2, false, 0, [0, 0, 0, 0, 0, 0, 0, 0]⟩ rfl rfl).1 rfl⟩

/-- The direct-block loop, when it completes without a read error, leaves
`remaining` at `size - (leading non-zero blocks) * blockSize` (saturating),
returns exactly the bytes it consumed, and produces the §4.5 concatenation of
block prefixes. -/
theorem read_file_loop_ok (img : Image) (sb : SuperBlock) :
    ∀ (bids : List Nat) (r : Nat) (c : List Nat) (rem : Nat),
      read_file_loop img sb bids r = .ok (c, rem) →
      rem = r - (bids.takeWhile (fun b => b != 0)).length * sb.blockSize
      ∧ c.length = r - rem
      ∧ c = spec_file_bytes img sb bids r := by
  intro bids
  induction bids with
  | nil =>
    intro r c rem h
    simp only [read_file_loop, Except.ok.injEq, Prod.mk.injEq] at h
    obtain ⟨rfl, rfl⟩ := h
    simp [spec_file_bytes]
  | cons bid rest ih =>
    intro r c rem h
    simp only [read_file_loop] at h
    by_cases hr : r = 0
    · rw [if_pos hr] at h
      simp only [Except.ok.injEq, Prod.mk.injEq] at h
      obtain ⟨rfl, rfl⟩ := h
      subst hr
      simp [spec_file_bytes]
    · rw [if_neg hr] at h
      by_cases hb : bid = 0
      · rw [if_pos hb] at h
        simp only [Except.ok.injEq, Prod.mk.injEq] at h
        obtain ⟨rfl, rfl⟩ := h
        subst hb
        simp [spec_file_bytes, hr, List.takeWhile]
      · rw [if_neg hb] at h
        cases hrb : read_block img sb bid with
        | error e => rw [hrb] at h; simp at h
        | ok blk =>
          rw [hrb] at h
          simp only at h
          cases hrec : read_file_loop img sb rest (r - min r sb.blockSize) with
          | error e => rw [hrec] at h; simp at h
          | ok pr =>
            obtain ⟨tail, rem'⟩ := pr
            rw [hrec] at h
            simp only [Except.ok.injEq, Prod.mk.injEq] at h
            obtain ⟨rfl, rfl⟩ := h
            obtain ⟨e1, e2, e3⟩ := ih (r - min r sb.blockSize) tail rem' hrec
            have hblen : blk.length = sb.blockSize :=
              read_block_ok_length img sb bid blk hrb
            have htw : ((bid :: rest).takeWhile (fun b => b != 0)).length
                = (rest.takeWhile (fun b => b != 0)).length + 1 := by
              simp [List.takeWhile_cons, hb]
            refine ⟨?_, ?_, ?_⟩
            · rw [htw, e1, Nat.succ_mul]
              rcases Nat.le_total r sb.blockSize with hle | hle
              · rw [Nat.min_eq_left hle]
                omega
              · rw [Nat.min_eq_right hle]
                omega
            · have hclen : (blk.take (min r sb.blockSize)).length
                  = min r sb.blockSize := by
                simp only [List.length_take, hblen]
                omega
              have hrem_le : rem' ≤ r - min r sb.blockSize := by omega
              simp only [List.length_append, hclen, e2]
              omega
            · have hspec : spec_file_bytes img sb (bid :: rest) r =
                  ((img.drop (bid * sb.blockSize)).take sb.blockSize).take
                      (min r sb.blockSize)
                    ++ spec_file_bytes img sb rest (r - min r sb.blockSize) := by
                rw [spec_file_bytes, if_neg (by simp [hr, hb])]
              rw [hspec, ← read_block_ok_bytes img sb bid blk hrb, e3]

/-- C3 (confirmed): for a resolved, non-directory inode whose direct-block
walk completes without a read error, the final `remaining` is the declared
size minus the bytes suppliable by the leading non-zero direct blocks
(saturating); `read_file_content` fails with TruncatedFile exactly when that
supply is smaller than the declared size, and otherwise returns the §4.5
concatenation of `min(remaining, blockSize)`-byte block prefixes with length
equal to the declared size. -/
theorem c3_read_file_content_contract (img : Image) (sb : SuperBlock)
    (path : List Nat) (inodeId : Nat) (ino : Inode) (c : List Nat) (rem : Nat)
    (h1 : resolve_path img sb path = .ok inodeId)
    (h2 : read_inode img sb inodeId = .ok ino)
    (h3 : ino.is_dir = false)
    (h4 : read_file_loop img sb ino.direct ino.size = .ok (c, rem)) :
    rem = ino.size
        - (ino.direct.takeWhile (fun b => b != 0)).length * sb.blockSize
    ∧ (read_file_content img sb path = .error .truncatedFile ↔
        (ino.direct.takeWhile (fun b => b != 0)).length * sb.blockSize
          < ino.size)
    ∧ (rem = 0 → read_file_content img sb path = .ok c
        ∧ c.length = ino.size
        ∧ c = spec_file_bytes img sb ino.direct ino.size) := by
  obtain ⟨e1, e2, e3⟩ := read_file_loop_ok img sb ino.direct ino.size c rem h4
  have hrfc : read_file_content img sb path =
      if rem ≠ 0 then .error .truncatedFile else .ok c := by
    simp only [read_file_content, h1, h2, h3, Bool.false_eq_true, if_false, h4]
  refine ⟨e1, ?_, ?_⟩
  · constructor
    · intro herr
      by_cases hz : rem = 0
      · rw [hrfc, if_neg (by simp [hz])] at herr
        simp at herr
      · omega
    · intro hlt
      rw [hrfc, if_pos (by omega)]
  · intro hz
    refine ⟨?_, ?_, e3⟩
    · rw [hrfc, if_neg (by simp [hz])]
    · omega

/-- C3 witness: in `IMG3a` the file `/big` (size 150 over blocks `[4, 5, 6]`)
reads back as 64 `A`s, 64 `B`s and 22 `C`s; in `IMG3b` the same path (size
2000 over two allocated blocks) fails with TruncatedFile. -/
theorem c3_witness :
    read_file_content IMG3a SB3 (ascii "/big") = .ok c3Content ∧
    c3Content.length = 150 ∧
    read_file_content IMG3b SB3 (ascii "/big") = .error .truncatedFile :=
  ⟨((c3_read_file_content_contract IMG3a SB3 (ascii "/big") 1
        ⟨1, false, 150, [4, 5, 6, 0, 0, 0, 0, 0]⟩ c3Content 0
        rfl rfl rfl rfl).2.2 rfl).1,
   ((c3_read_file_content_contract IMG3a SB3 (ascii "/big") 1
        ⟨1, false, 150, [4, 5, 6, 0, 0, 0, 0, 0]⟩ c3Content 0
        rfl rfl rfl rfl).2.2 rfl).2.1,
   (c3_read_file_content_contract IMG3b SB3 (ascii "/big") 1
        ⟨1, false, 2000, [4, 5, 0, 0, 0, 0, 0, 0]⟩
        (List.replicate 64 65 ++ List.replicate 64 66) 1872
        rfl rfl rfl rfl).2.1.mpr (by decide)⟩

end ParseDataFs
